import Mathlib

/-!
A verification development for the `mcp-neo4j-remote` repository.

The graph memory store (`Neo4jMemory`, `src/neo4j/memory.ts`) is embedded as pure
functions over an explicit `GraphState`; each method is translated from the Cypher
query it sends to the database, with `MERGE` / `MATCH` / `UNWIND` semantics made
explicit.  The authentication chain (`AuthManager`, `src/auth/manager.ts`) is
embedded as a function over a list of providers, each provider being a record of
its `canHandle` predicate and its fallible `authenticate` function.

One detail of the source is load-bearing for several theorems below: the Cypher
text of `createEntities`, `createRelations` and `deleteRelations` is built with a
TypeScript template literal in which the interpolation placeholders are escaped
(`\` + backtick and `\` + dollar), e.g. the query line
`MERGE (from)-[r:\`\${relationType}\`]->(to)`.  A template literal turns the
escaped `\$` into a plain `$`, so no interpolation happens: the backquoted
relationship-type name sent to Neo4j is the twelve literal characters
`$\x7brelationType\x7d`, and the secondary entity label is the literal
`$\x7bentity.type\x7d`.  The `relationType` query parameter is still passed but
is unused by the query text.  The embedding reproduces this behaviour literally.
-/

namespace McpNeo4j

/-- The `Entity` record (`src/types/index.ts`, `EntitySchema`). -/
structure Entity where
  name : String
  type : String
  observations : List String
deriving DecidableEq, Repr

/-- The `Relation` record (`src/types/index.ts`, `RelationSchema`). -/
structure Relation where
  source : String
  target : String
  relationType : String
deriving DecidableEq, Repr

/-- The `KnowledgeGraph` projection (`src/types/index.ts`, `KnowledgeGraphSchema`). -/
structure KnowledgeGraph where
  entities : List Entity
  relations : List Relation
deriving DecidableEq, Repr

/-- The `ObservationAddition` record (`src/types/index.ts`). -/
structure ObservationAddition where
  entityName : String
  contents : List String
deriving DecidableEq, Repr

/-- The `ObservationDeletion` record (`src/types/index.ts`). -/
structure ObservationDeletion where
  entityName : String
  observations : List String
deriving DecidableEq, Repr

/-- One element of the list returned by `Neo4jMemory.addObservations`. -/
structure AddResult where
  entityName : String
  addedObservations : List String
deriving DecidableEq, Repr

/-- A stored Neo4j node carrying the `:Memory` label.  `name`, `type` and
`observations` are its properties; `extraLabels` are the secondary labels that
`createEntities` attaches beyond `:Memory`. -/
structure Node where
  name : String
  type : String
  observations : List String
  extraLabels : List String
deriving DecidableEq, Repr

/-- A stored directed relationship.  `edgeType` is the relationship-type name
exactly as it appears in the Cypher text that created it. -/
structure Edge where
  source : String
  target : String
  edgeType : String
deriving DecidableEq, Repr

/-- The database state owned by the store: `:Memory` nodes and their edges. -/
structure GraphState where
  nodes : List Node
  edges : List Edge
deriving DecidableEq, Repr

/-- A database state with no `:Memory` nodes and no relationships. -/
def emptyGraphState : GraphState := { nodes := [], edges := [] }

/-- The relationship-type name occurring in the Cypher text of `createRelations`
and `deleteRelations`.  The TS template literal escapes the placeholder
(`\$` + brace), so these twelve characters are sent verbatim as the backquoted
type name; the `relationType` query parameter is never interpolated. -/
def relTypeLiteral : String := "$\x7brelationType\x7d"

/-- The secondary-label name occurring in the Cypher text of `createEntities`
(`SET e += entity, e:\`\${entity.type}\``).  Again the placeholder is escaped,
so the label is this literal character string, not the entity's `type` value. -/
def entityTypeLabelLiteral : String := "$\x7bentity.type\x7d"

/-- Look up the node matched by `MATCH (e:Memory \x7b name: name \x7d)`. -/
def findNode? (g : GraphState) (name : String) : Option Node :=
  g.nodes.find? (fun n => n.name == name)

/-- Holds (as `true`) iff a `:Memory` node with the given `name` exists. -/
def hasNode (g : GraphState) (name : String) : Bool :=
  g.nodes.any (fun n => n.name == name)

/-- One `UNWIND` row of `createEntities`:
`MERGE (e:Memory \x7b name: entity.name \x7d)` matches the node by name or
creates it, then `SET e += entity` overwrites the `name`, `type` and
`observations` properties with the supplied values, and
`SET e:\`\${entity.type}\`` adds the literal secondary label
`entityTypeLabelLiteral` (the escaped placeholder, see above). -/
def mergeEntity (g : GraphState) (e : Entity) : GraphState :=
  if hasNode g e.name then
    { g with nodes := g.nodes.map (fun n =>
        if n.name == e.name then
          { name := e.name, type := e.type, observations := e.observations,
            extraLabels := if entityTypeLabelLiteral ∈ n.extraLabels
                           then n.extraLabels
                           else n.extraLabels ++ [entityTypeLabelLiteral] }
        else n) }
  else
    { g with nodes := g.nodes ++
        [{ name := e.name, type := e.type, observations := e.observations,
           extraLabels := [entityTypeLabelLiteral] }] }

/-- The operation `Neo4jMemory.createEntities`: one query, `UNWIND $entities as entity`
processing the rows in order; returns the input list unchanged. -/
def createEntities (es : List Entity) (g : GraphState) : GraphState × List Entity :=
  (es.foldl mergeEntity g, es)

/-- One round trip of `createRelations`:
`MATCH (from:Memory \x7b name: $source \x7d) MATCH (to:Memory \x7b name: $target \x7d)`
— if either match is empty the query produces no rows and writes nothing —
then `MERGE (from)-[r:\`\${relationType}\`]->(to)` match-or-creates the edge
whose type is the literal `relTypeLiteral` (the escaped placeholder); the
relation's `relationType` value is passed as a parameter but unused. -/
def createRelOne (g : GraphState) (r : Relation) : GraphState :=
  if hasNode g r.source && hasNode g r.target then
    if (Edge.mk r.source r.target relTypeLiteral) ∈ g.edges then g
    else { g with edges := g.edges ++ [Edge.mk r.source r.target relTypeLiteral] }
  else g

/-- The operation `Neo4jMemory.createRelations`: a `for` loop issuing one round trip per
relation, in list order; returns the input list unchanged. -/
def createRelations (rs : List Relation) (g : GraphState) : GraphState × List Relation :=
  (rs.foldl createRelOne g, rs)

/-- One round trip of `deleteRelations`:
`MATCH (source:Memory \x7b name: $source \x7d)-[r:\`\${relationType}\`]->(target:Memory \x7b name: $target \x7d) DELETE r`.
The type in the pattern is again the literal `relTypeLiteral`; a pattern that
matches nothing deletes nothing. -/
def deleteRelOne (g : GraphState) (r : Relation) : GraphState :=
  { g with edges := g.edges.filter (fun e =>
      !(e.source == r.source && e.target == r.target && e.edgeType == relTypeLiteral
        && hasNode g r.source && hasNode g r.target)) }

/-- The operation `Neo4jMemory.deleteRelations`: a `for` loop, one round trip per relation. -/
def deleteRelations (rs : List Relation) (g : GraphState) : GraphState :=
  rs.foldl deleteRelOne g

/-- One `UNWIND` row of `addObservations`:
`MATCH (e:Memory \x7b name: obs.entityName \x7d)` — a missing entity drops the
row (no write, no returned record); otherwise
`WITH e, [o in obs.contents WHERE NOT o IN coalesce(e.observations, [])] as new`
filters the submitted contents against the node's existing observations only,
`SET e.observations = coalesce(e.observations, []) + new` appends, and
`RETURN e.name as name, new` yields one result row. -/
def addObsOne (g : GraphState) (a : ObservationAddition) : GraphState × Option AddResult :=
  match findNode? g a.entityName with
  | some n =>
      let new := a.contents.filter (fun o => !n.observations.contains o)
      ({ g with nodes := g.nodes.map (fun m =>
            if m.name == a.entityName then { m with observations := m.observations ++ new }
            else m) },
       some ⟨a.entityName, new⟩)
  | none => (g, none)

/-- Row-at-a-time processing of the `UNWIND` in `addObservations`.  A later
row naming the same entity here filters against the already-updated node,
whereas the query's clause-at-a-time execution (an `Eager` barrier sits between
the `WITH` that reads `e.observations` and the `SET` that writes it) filters
every row against the pre-call observations; the two agree on batches whose
rows name pairwise-distinct entities, and the theorems below are stated in
that regime. -/
def addObsGo : GraphState → List ObservationAddition → GraphState × List AddResult
  | g, [] => (g, [])
  | g, a :: rest =>
      let p := addObsOne g a
      let q := addObsGo p.1 rest
      (q.1, p.2.toList ++ q.2)

/-- The operation `Neo4jMemory.addObservations`: one query over all pairs; the result list
holds one `(name, new)` record per matched entity, in row order. -/
def addObservations (as : List ObservationAddition) (g : GraphState) :
    GraphState × List AddResult :=
  addObsGo g as

/-- One `UNWIND` row of `deleteEntities`:
`MATCH (e:Memory \x7b name: name \x7d) DETACH DELETE e` — deletes the matched
node together with every incident relationship; a name that matches no node is
a dropped row. -/
def detachDeleteOne (g : GraphState) (name : String) : GraphState :=
  if hasNode g name then
    { nodes := g.nodes.filter (fun n => !(n.name == name)),
      edges := g.edges.filter (fun e => !(e.source == name) && !(e.target == name)) }
  else g

/-- The operation `Neo4jMemory.deleteEntities`: one query, `UNWIND $entities as name`. -/
def deleteEntities (names : List String) (g : GraphState) : GraphState :=
  names.foldl detachDeleteOne g

/-- One `UNWIND` row of `deleteObservations`:
`MATCH (e:Memory \x7b name: d.entityName \x7d)
 SET e.observations = [o in coalesce(e.observations, []) WHERE NOT o IN d.observations]`.
A missing entity is a dropped row (no write). -/
def deleteObsOne (g : GraphState) (d : ObservationDeletion) : GraphState :=
  { g with nodes := g.nodes.map (fun n =>
      if n.name == d.entityName then
        { n with observations := n.observations.filter (fun o => !d.observations.contains o) }
      else n) }

/-- The operation `Neo4jMemory.deleteObservations`: one query over all deletion records. -/
def deleteObservations (ds : List ObservationDeletion) (g : GraphState) : GraphState :=
  ds.foldl deleteObsOne g

/-- The operation `Neo4jMemory.loadGraph` at the default filter `*` (the `readGraph` path):
the full-text query matches every `:Memory` node, `OPTIONAL MATCH (entity)-[r]-(other)`
collects every relationship incident to a matched node, `collect(distinct ...)`
deduplicates both projections, and the TS post-processing filters out entities
with a falsy `name` and relations with a falsy `source`, `target` or
`relationType` (which also discards the null row a relation-less node adds). -/
def readGraph (g : GraphState) : KnowledgeGraph :=
  let ents := ((g.nodes.map fun n => Entity.mk n.name n.type n.observations).dedup).filter
      (fun e => !(e.name == ""))
  let incident := g.edges.filter (fun e => hasNode g e.source || hasNode g e.target)
  let rels := ((incident.map fun e => Relation.mk e.source e.target e.edgeType).dedup).filter
      (fun r => !(r.source == "") && !(r.target == "") && !(r.relationType == ""))
  { entities := ents, relations := rels }

/-- Runs a per-relation round-trip loop (`createRelations` / `deleteRelations`)
in which the round trip for the element at index `k` fails: earlier round trips
are already committed single queries, the loop stops at the failure, and the
error carries the state at that point (nothing is rolled back).  `k` past the
end of the list means every round trip succeeds. -/
def runRels (step : GraphState → Relation → GraphState) :
    Nat → List Relation → GraphState → Except GraphState GraphState
  | _, [], g => .ok g
  | 0, _ :: _, g => .error g
  | k + 1, r :: rest, g => runRels step k rest (step g r)

end McpNeo4j

namespace McpAuth

/-- The `AuthSession` record (`src/types/index.ts`).  The `createdAt` / `expiresAt`
timestamps are wall-clock values and are not modelled. -/
structure AuthSession where
  id : String
  type : String
  userId : Option String
  email : Option String
  name : Option String
  provider : Option String
  scopes : Option (List String)
deriving DecidableEq, Repr

/-- The credential-bearing parts of an incoming HTTP request: the
`Authorization` header, the `x-api-key` header and the `api_key` query
parameter. -/
structure Request where
  authorization : Option String
  xApiKey : Option String
  queryApiKey : Option String
deriving DecidableEq, Repr

/-- An authentication provider as the manager sees it (`src/auth/base.ts`
interface): a name, a cheap `canHandle` predicate, and a fallible
`authenticate`. -/
structure Provider where
  name : String
  canHandle : Request → Bool
  authenticate : Request → Except String AuthSession

/-- The anonymous session synthesized by `AuthManager.authenticate` when no
provider is configured (`src/auth/manager.ts`, lines 54-66). -/
def anonymousSession : AuthSession :=
  { id := "no-auth", type := "oauth", userId := some "anonymous", email := none,
    name := some "Anonymous User", provider := some "none",
    scopes := some ["read", "write"] }

/-- The provider loop of `AuthManager.authenticate` (lines 69-86): in list
order, skip a provider that cannot handle the request, try one that can, return
its session on success, continue past its failure; throw when the list is
exhausted. -/
def tryProviders : List Provider → Request → Except String AuthSession
  | [], _ => .error "Authentication failed: No valid credentials provided"
  | p :: rest, r =>
      if p.canHandle r then
        match p.authenticate r with
        | .ok s => .ok s
        | .error _ => tryProviders rest r
      else tryProviders rest r

/-- The entry point `AuthManager.authenticate` (`src/auth/manager.ts`, lines 45-87): with zero
configured providers, return the anonymous session; otherwise run the provider
loop. -/
def authenticate (providers : List Provider) (r : Request) : Except String AuthSession :=
  if providers.isEmpty then .ok anonymousSession
  else tryProviders providers r

/-- The `AuthManager` constructor (`src/auth/manager.ts`, lines 10-40): the OAuth
provider is pushed first when a Descope project id is configured, then the
API-key provider when a non-empty key list is configured; each construction is
wrapped in `try`/`catch`, and a constructor failure is logged and skipped.  The
two constructors' outcomes are passed in as `Except` values. -/
def constructProviders (descopeProjectId : Option String) (apiKeys : Option (List String))
    (oauthCtor : String → Except String Provider)
    (apiKeyCtor : List String → Except String Provider) : List Provider :=
  (match descopeProjectId with
   | some pid =>
       match oauthCtor pid with
       | .ok p => [p]
       | .error _ => []
   | none => []) ++
  (match apiKeys with
   | some ks =>
       if ks.length > 0 then
         match apiKeyCtor ks with
         | .ok p => [p]
         | .error _ => []
       else []
   | none => [])

/-- Modelled from the spec: extraction of the credential that follows an
authentication-scheme marker (such as `Bearer` or `ApiKey`) at the start of an
`Authorization` header value. -/
def headerToken? (scheme : String) (a : String) : Option String :=
  if scheme.data.isPrefixOf a.data then some ⟨a.data.drop scheme.data.length⟩ else none

/-- Modelled from the spec: the bearer-token extraction of the OAuth provider
(`src/auth/oauth.ts`, a file absent from the repository snapshot).  Per §4.2
the provider's marker is an `Authorization: Bearer` header. -/
def bearerToken? (r : Request) : Option String :=
  r.authorization.bind (headerToken? "Bearer ")

/-- Modelled from the spec: the OAuth credential provider (`src/auth/oauth.ts`,
absent from the snapshot).  `canHandle` checks for the `Authorization: Bearer`
marker; `authenticate` submits the token to the external token-introspection
backend, here the parameter `introspect`, and fails when the backend rejects
the token. -/
def oauthProvider (introspect : String → Option AuthSession) : Provider :=
  { name := "oauth",
    canHandle := fun r => (bearerToken? r).isSome,
    authenticate := fun r =>
      match bearerToken? r with
      | some t =>
          match introspect t with
          | some s => .ok s
          | none => .error "Invalid or expired token"
      | none => .error "No bearer token" }

/-- Modelled from the spec: the API-key extraction of the API-key provider
(`src/auth/apikey.ts`, absent from the snapshot).  Per §4.2 the markers are the
`x-api-key` header, an `Authorization: ApiKey` header, or an `api_key` query
parameter. -/
def apiKey? (r : Request) : Option String :=
  match r.xApiKey with
  | some k => some k
  | none =>
      match r.authorization.bind (headerToken? "ApiKey ") with
      | some k => some k
      | none => r.queryApiKey

/-- Modelled from the spec: the session produced by the API-key provider
(`src/auth/apikey.ts`, absent from the snapshot); per §3 its `type` is
`"apikey"`. -/
def apiKeySession (k : String) : AuthSession :=
  { id := k, type := "apikey", userId := some "apikey-user", email := none,
    name := none, provider := some "apikey", scopes := some ["read", "write"] }

/-- Modelled from the spec: the API-key credential provider
(`src/auth/apikey.ts`, absent from the snapshot).  `canHandle` checks for any
API-key marker; `authenticate` accepts exactly the keys on the static
allowlist. -/
def apiKeyProvider (keys : List String) : Provider :=
  { name := "apikey",
    canHandle := fun r => (apiKey? r).isSome,
    authenticate := fun r =>
      match apiKey? r with
      | some k => if keys.contains k then .ok (apiKeySession k) else .error "Invalid API key"
      | none => .error "No API key provided" }

end McpAuth

namespace McpNeo4j

/-- The invariant claimed by the spec for observation sequences: no entity's
`observations` list contains a duplicate string. -/
def obsNodup (g : GraphState) : Prop :=
  ∀ n ∈ g.nodes, n.observations.Nodup

instance (g : GraphState) : Decidable (obsNodup g) := by
  unfold obsNodup; infer_instance

/-- The two entities of the spec's relation round-trip scenario (§8). -/
def demoEntities : List Entity :=
  [⟨"Alice", "Person", ["likes tea"]⟩, ⟨"Bob", "Person", []⟩]

/-- A graph holding the entities `Alice` and `Bob`. -/
def demoG1 : GraphState := (createEntities demoEntities emptyGraphState).1

/-- The relation of the spec's round-trip scenario (§8). -/
def demoKnows : Relation := ⟨"Alice", "Bob", "knows"⟩

/-- The state after creating `demoKnows` once on `demoG1`. -/
def demoG2 : GraphState := (createRelations [demoKnows] demoG1).1

/-- The state after creating `demoKnows` a second time. -/
def demoG3 : GraphState := (createRelations [demoKnows] demoG2).1

/-- The single entity of the spec's search scenario (§8). -/
def demoAlice : Entity := ⟨"Alice", "Person", ["likes tea"]⟩

/-- A graph holding only `demoAlice`. -/
def demoGA : GraphState := (createEntities [demoAlice] emptyGraphState).1

/-- A graph with one entity `A` carrying no observations. -/
def dupG0 : GraphState := (createEntities [⟨"A", "T", []⟩] emptyGraphState).1

/-- A graph with one entity `A` whose observations are `["x"]`. -/
def demoObsG : GraphState := (createEntities [⟨"A", "T", ["x"]⟩] emptyGraphState).1

end McpNeo4j

open McpNeo4j McpAuth

/-- Auxiliary: with a failure at index `k < rs.length`, a per-relation
round-trip loop stops at `k` with exactly the first `k` steps applied. -/
theorem runRels_error (step : GraphState → Relation → GraphState)
    (rs : List Relation) (g : GraphState) (k : Nat) (hk : k < rs.length) :
    runRels step k rs g = .error ((rs.take k).foldl step g) := by
  induction rs generalizing k g with
  | nil => simp at hk
  | cons r rest ih =>
    cases k with
    | zero => simp [runRels]
    | succ k =>
      simp only [runRels, List.take_succ_cons, List.foldl_cons]
      exact ih (step g r) k (by simpa using hk)

/-- Auxiliary: with no failure among the first `rs.length` round trips, the
loop applies every step. -/
theorem runRels_ok (step : GraphState → Relation → GraphState) :
    ∀ (rs : List Relation) (g : GraphState),
      runRels step rs.length rs g = .ok (rs.foldl step g)
  | [], _ => rfl
  | r :: rest, g => by
      simp only [runRels, List.length_cons, List.foldl_cons]
      exact runRels_ok step rest (step g r)

/-- C4: with zero providers configured, `AuthManager.authenticate` returns
(never throws) the synthesized anonymous session, whose `type` is `"oauth"`,
whose `userId` is `"anonymous"` and whose scopes are `["read", "write"]`. -/
theorem authenticate_no_providers_anonymous (r : Request) :
    authenticate [] r = .ok anonymousSession ∧
    anonymousSession.type = "oauth" ∧
    anonymousSession.userId = some "anonymous" ∧
    anonymousSession.scopes = some ["read", "write"] :=
  ⟨rfl, rfl, rfl, rfl⟩

/-- C3: `AuthManager.authenticate` walks the providers in registration order:
a provider that claims the request but fails makes the manager continue with
the remaining providers; the first success is returned immediately, whatever
comes later; consequently a request carrying an invalid bearer token together
with an allow-listed `x-api-key` authenticates via the API-key provider when
both providers are configured in the OAuth-first order. -/
theorem authenticate_order_failure_fallback :
    (∀ (p : Provider) (rest : List Provider) (r : Request) (e : String),
        p.canHandle r = true → p.authenticate r = .error e →
        authenticate (p :: rest) r = tryProviders rest r) ∧
    (∀ (p : Provider) (rest : List Provider) (r : Request) (s : AuthSession),
        p.canHandle r = true → p.authenticate r = .ok s →
        authenticate (p :: rest) r = .ok s) ∧
    (∀ (introspect : String → Option AuthSession) (keys : List String)
        (r : Request) (t k : String),
        bearerToken? r = some t → introspect t = none →
        apiKey? r = some k → keys.contains k = true →
        authenticate [oauthProvider introspect, apiKeyProvider keys] r =
          .ok (apiKeySession k)) := by
  refine ⟨?_, ?_, ?_⟩
  · intro p rest r e hc ha
    simp [authenticate, tryProviders, hc, ha]
  · intro p rest r s hc ha
    simp [authenticate, tryProviders, hc, ha]
  · intro introspect keys r t k hb hi hk hmem
    have hmem' : k ∈ keys := by simpa using hmem
    simp [authenticate, tryProviders, oauthProvider, apiKeyProvider, hb, hi, hk, hmem']

/-- Witness for C3 at concrete providers and a concrete request. -/
theorem authenticate_order_failure_fallback_witness :
    (authenticate
        [⟨"deny", fun _ => true, fun _ => .error "nope"⟩,
         ⟨"allow", fun _ => true, fun _ => .ok anonymousSession⟩]
        ⟨none, none, none⟩ = .ok anonymousSession) ∧
    (authenticate [oauthProvider (fun _ => none), apiKeyProvider ["secret"]]
        ⟨some "Bearer bad", some "secret", none⟩ = .ok (apiKeySession "secret")) := by
  constructor
  · have h := authenticate_order_failure_fallback.1
      ⟨"deny", fun _ => true, fun _ => .error "nope"⟩
      [⟨"allow", fun _ => true, fun _ => .ok anonymousSession⟩]
      ⟨none, none, none⟩ "nope" rfl rfl
    rw [h]
    rfl
  · exact authenticate_order_failure_fallback.2.2 (fun _ => none) ["secret"]
      ⟨some "Bearer bad", some "secret", none⟩ "bad" "secret"
      (by decide) rfl (by decide) (by decide)

/-- C10: a provider whose constructor fails is skipped (the other provider, if
it constructs, is still registered); when every configured provider fails to
construct, the provider list is empty and every request authenticates as the
anonymous open-access session even though credentials were configured. -/
theorem constructor_failures_skip_and_anonymous
    (pid : String) (ks : List String)
    (octor : String → Except String Provider)
    (actor actorOk : List String → Except String Provider)
    (p : Provider) (eo ea : String)
    (ho : octor pid = .error eo) (ha : actor ks = .error ea)
    (haOk : actorOk ks = .ok p) (hks : 0 < ks.length) :
    constructProviders (some pid) (some ks) octor actorOk = [p] ∧
    constructProviders (some pid) (some ks) octor actor = [] ∧
    ∀ r, authenticate (constructProviders (some pid) (some ks) octor actor) r =
        .ok anonymousSession := by
  have hempty : constructProviders (some pid) (some ks) octor actor = [] := by
    simp [constructProviders, ho, ha]
  refine ⟨?_, hempty, ?_⟩
  · simp [constructProviders, ho, haOk, hks]
  · intro r
    rw [hempty]
    rfl

/-- Witness for C10 with concrete throwing constructors. -/
theorem constructor_failures_skip_and_anonymous_witness :
    constructProviders (some "proj") (some ["k1"])
        (fun _ => .error "ctor boom")
        (fun ks => .ok (apiKeyProvider ks)) = [apiKeyProvider ["k1"]] ∧
    constructProviders (some "proj") (some ["k1"])
        (fun _ => .error "ctor boom") (fun _ => .error "ctor boom too") = [] ∧
    authenticate
      (constructProviders (some "proj") (some ["k1"])
        (fun _ => .error "ctor boom") (fun _ => .error "ctor boom too"))
      ⟨some "Bearer t", some "k1", none⟩ = .ok anonymousSession := by
  have h := constructor_failures_skip_and_anonymous "proj" ["k1"]
    (fun _ => .error "ctor boom") (fun _ => .error "ctor boom too")
    (fun ks => .ok (apiKeyProvider ks)) (apiKeyProvider ["k1"])
    "ctor boom" "ctor boom too" rfl rfl rfl (by decide)
  exact ⟨h.1, h.2.1, h.2.2 ⟨some "Bearer t", some "k1", none⟩⟩

/-- C7: a relation one of whose endpoints is missing writes nothing — both
`MATCH` clauses must produce a row before the `MERGE` runs — and the call
completes without error, returning its input. -/
theorem createRelations_missing_endpoint_noop
    (g : GraphState) (r : Relation)
    (h : hasNode g r.source = false ∨ hasNode g r.target = false) :
    createRelOne g r = g ∧ createRelations [r] g = (g, [r]) := by
  have h1 : (hasNode g r.source && hasNode g r.target) = false := by
    cases h with
    | inl h => simp [h]
    | inr h => simp [h]
  refine ⟨?_, ?_⟩
  · simp [createRelOne, h1]
  · simp [createRelations, createRelOne, h1]

/-- Witness for C7: the spec's `Ghost1`/`Ghost2` scenario on the empty graph. -/
theorem createRelations_missing_endpoint_noop_witness :
    hasNode emptyGraphState "Ghost1" = false ∧
    createRelations [⟨"Ghost1", "Ghost2", "knows"⟩] emptyGraphState =
      (emptyGraphState, [⟨"Ghost1", "Ghost2", "knows"⟩]) :=
  ⟨by decide,
   (createRelations_missing_endpoint_noop emptyGraphState ⟨"Ghost1", "Ghost2", "knows"⟩
      (Or.inl (by decide))).2⟩

/-- C9: `createRelations` and `deleteRelations` issue one store round trip per
relation, in list order; a failure at round trip `k` leaves the writes of
relations `0..k-1` committed (the error state is exactly the fold over the
length-`k` prefix), attempts nothing after `k`, and rolls nothing back, while
an all-success run applies every relation. -/
theorem relation_batches_nonatomic
    (g : GraphState) (rs : List Relation) (k : Nat) (hk : k < rs.length) :
    runRels createRelOne k rs g = .error ((rs.take k).foldl createRelOne g) ∧
    runRels deleteRelOne k rs g = .error ((rs.take k).foldl deleteRelOne g) ∧
    runRels createRelOne rs.length rs g = .ok (createRelations rs g).1 ∧
    runRels deleteRelOne rs.length rs g = .ok (deleteRelations rs g) :=
  ⟨runRels_error createRelOne rs g k hk,
   runRels_error deleteRelOne rs g k hk,
   runRels_ok createRelOne rs g,
   runRels_ok deleteRelOne rs g⟩

/-- Witness for C9: a two-relation batch on the `Alice`/`Bob` graph whose
second round trip fails. -/
theorem relation_batches_nonatomic_witness :
    runRels createRelOne 1 [⟨"Alice", "Bob", "knows"⟩, ⟨"Bob", "Alice", "knows"⟩] demoG1 =
      .error (([⟨"Alice", "Bob", "knows"⟩, ⟨"Bob", "Alice", "knows"⟩].take 1).foldl
                createRelOne demoG1) ∧
    runRels deleteRelOne 1 [⟨"Alice", "Bob", "knows"⟩, ⟨"Bob", "Alice", "knows"⟩] demoG1 =
      .error (([⟨"Alice", "Bob", "knows"⟩, ⟨"Bob", "Alice", "knows"⟩].take 1).foldl
                deleteRelOne demoG1) := by
  have h := relation_batches_nonatomic demoG1
    [⟨"Alice", "Bob", "knows"⟩, ⟨"Bob", "Alice", "knows"⟩] 1 (by decide)
  exact ⟨h.1, h.2.1⟩

/-- C1 fails on the code: because the relationship-type placeholder in the
`createRelations` Cypher text is escaped, the edge created for
`(Alice, knows, Bob)` carries the literal type `relTypeLiteral` rather than
`"knows"`; re-creation is indeed a no-op, but `readGraph` reports the literal
type — the `knows` relation never round-trips — and a relation with a distinct
`relationType` between the same endpoints collapses onto the same edge, so the
ordered triple does not identify edges. -/
theorem createRelations_literal_type_eval :
    demoG3 = demoG2 ∧
    (readGraph demoG3).relations = [⟨"Alice", "Bob", relTypeLiteral⟩] ∧
    demoKnows ∉ (readGraph demoG3).relations ∧
    (createRelations [⟨"Alice", "Bob", "likes"⟩] demoG3).1 = demoG3 ∧
    relTypeLiteral ≠ "knows" := by
  decide

/-- C5 fails on the code: the secondary-label placeholder in the
`createEntities` Cypher text is escaped, so the label attached to every node is
the literal `entityTypeLabelLiteral`, never the entity's `type` value
(`"Person"` here); the upsert-by-name, the unchanged returned list and the
call-twice idempotence do hold at this input. -/
theorem createEntities_literal_label_eval :
    (createEntities [demoAlice] emptyGraphState).2 = [demoAlice] ∧
    demoGA.nodes.map (fun n => n.extraLabels) = [[entityTypeLabelLiteral]] ∧
    (∀ n ∈ demoGA.nodes, "Person" ∉ n.extraLabels) ∧
    (createEntities [demoAlice] demoGA).1 = demoGA ∧
    entityTypeLabelLiteral ≠ "Person" := by
  decide

/-- Counterexample to C2: on an entity with no observations, adding the
contents list `["y", "y"]` stores both copies — the row filter checks the
submitted strings only against the observations already on the node, not
against each other — so the entity's observation sequence ends up with a
duplicate. -/
theorem addObservations_duplicate_counterexample :
    (addObservations [⟨"A", ["y", "y"]⟩] dupG0).1.nodes.map (fun n => n.observations) =
      [["y", "y"]] ∧
    (addObservations [⟨"A", ["y", "y"]⟩] dupG0).2 = [⟨"A", ["y", "y"]⟩] ∧
    ¬ (["y", "y"] : List String).Nodup := by
  decide

/-- Auxiliary: a `deleteEntities` row whose name matches no node is dropped. -/
theorem deleteEntities_all_missing :
    ∀ (names : List String) (g : GraphState),
      (∀ n ∈ names, hasNode g n = false) → deleteEntities names g = g
  | [], _, _ => rfl
  | n :: rest, g, h => by
      have hstep : detachDeleteOne g n = g := by
        simp [detachDeleteOne, h n (by simp)]
      simpa [deleteEntities, hstep] using
        deleteEntities_all_missing rest g (fun m hm => h m (by simp [hm]))

/-- Auxiliary: a `deleteObservations` row whose entity does not exist writes
nothing. -/
theorem deleteObservations_all_missing :
    ∀ (ds : List ObservationDeletion) (g : GraphState),
      (∀ d ∈ ds, hasNode g d.entityName = false) → deleteObservations ds g = g
  | [], _, _ => rfl
  | d :: rest, g, h => by
      have hnone : ∀ n ∈ g.nodes, (n.name == d.entityName) = false := by
        intro n hn
        have hd := h d (by simp)
        simp only [hasNode, List.any_eq_false] at hd
        simpa using hd n hn
      have hnodes : g.nodes.map (fun n =>
          if n.name == d.entityName then
            { n with observations :=
                n.observations.filter (fun o => !d.observations.contains o) }
          else n) = g.nodes := by
        have hpt : ∀ n ∈ g.nodes,
            (if n.name == d.entityName then
              { n with observations :=
                  n.observations.filter (fun o => !d.observations.contains o) }
            else n) = id n := fun n hn => by simp [hnone n hn, id]
        rw [List.map_congr_left hpt, List.map_id]
      have hstep : deleteObsOne g d = g := by
        unfold deleteObsOne
        rw [hnodes]
      calc deleteObservations (d :: rest) g
          = deleteObservations rest (deleteObsOne g d) := rfl
        _ = deleteObservations rest g := by rw [hstep]
        _ = g := deleteObservations_all_missing rest g (fun m hm => h m (by simp [hm]))

/-- C8: `deleteEntities` and `deleteObservations` applied to names of entities
that do not exist succeed (they are total functions of the state) and leave the
graph completely unchanged, while deleting an existing entity detach-deletes
it: the node disappears together with every edge incident to it. -/
theorem deletes_missing_noop_and_detach
    (g : GraphState) (names : List String) (ds : List ObservationDeletion)
    (h1 : ∀ n ∈ names, hasNode g n = false)
    (h2 : ∀ d ∈ ds, hasNode g d.entityName = false) :
    deleteEntities names g = g ∧
    deleteObservations ds g = g ∧
    (∀ name, hasNode g name = true →
      deleteEntities [name] g =
        { nodes := g.nodes.filter (fun n => !(n.name == name)),
          edges := g.edges.filter (fun e => !(e.source == name) && !(e.target == name)) }) := by
  refine ⟨deleteEntities_all_missing names g h1,
          deleteObservations_all_missing ds g h2, ?_⟩
  intro name hname
  simp [deleteEntities, detachDeleteOne, hname]

/-- Witness for C8: the spec's `ghost` scenario on the `Alice`/`Bob` graph. -/
theorem deletes_missing_noop_and_detach_witness :
    deleteEntities ["ghost"] demoG1 = demoG1 ∧
    deleteObservations [⟨"ghost", ["x"]⟩] demoG1 = demoG1 ∧
    deleteEntities ["Alice"] demoG2 =
      { nodes := demoG2.nodes.filter (fun n => !(n.name == "Alice")),
        edges := demoG2.edges.filter
          (fun e => !(e.source == "Alice") && !(e.target == "Alice")) } := by
  have hA := deletes_missing_noop_and_detach demoG1 ["ghost"] [⟨"ghost", ["x"]⟩]
    (by decide) (by decide)
  have hB := deletes_missing_noop_and_detach demoG2 [] [] (by simp) (by simp)
  exact ⟨hA.1, hA.2.1, hB.2.2 "Alice" (by decide)⟩

/-- Auxiliary: one `createEntities` row keeps every observation list
duplicate-free when the row's own list is duplicate-free. -/
theorem obsNodup_mergeEntity (g : GraphState) (e : Entity) (hg : obsNodup g)
    (he : e.observations.Nodup) : obsNodup (mergeEntity g e) := by
  unfold obsNodup mergeEntity
  split
  · intro n hn
    simp only [List.mem_map] at hn
    obtain ⟨m, hm, rfl⟩ := hn
    by_cases hc : (m.name == e.name) = true
    · simp only [hc, if_true]
      exact he
    · simp only [hc, if_false]
      exact hg m hm
  · intro n hn
    simp only [List.mem_append, List.mem_singleton] at hn
    cases hn with
    | inl h => exact hg n h
    | inr h => subst h; exact he

/-- Auxiliary: `createEntities` keeps every observation list duplicate-free
when each submitted list is duplicate-free. -/
theorem obsNodup_createEntities_fold :
    ∀ (es : List Entity) (g : GraphState), obsNodup g →
      (∀ e ∈ es, e.observations.Nodup) → obsNodup (es.foldl mergeEntity g)
  | [], _, hg, _ => hg
  | e :: rest, g, hg, he => by
      have h1 := obsNodup_mergeEntity g e hg (he e (by simp))
      simpa [List.foldl_cons] using
        obsNodup_createEntities_fold rest (mergeEntity g e) h1
          (fun x hx => he x (by simp [hx]))

/-- Auxiliary: an `addObservations` row never renames nodes. -/
theorem addObsOne_names (g : GraphState) (a : ObservationAddition) :
    (addObsOne g a).1.nodes.map (fun n => n.name) = g.nodes.map (fun n => n.name) := by
  cases h : findNode? g a.entityName with
  | none => simp [addObsOne, h]
  | some n =>
      simp only [addObsOne, h]
      rw [List.map_map]
      refine List.map_congr_left ?_
      intro m _
      by_cases hc : (m.name == a.entityName) = true <;>
        simp [Function.comp, hc]

/-- Auxiliary: one `addObservations` row keeps every observation list
duplicate-free when the submitted contents list is duplicate-free, on a state
whose node names are distinct (which `MERGE`-by-name keeps true). -/
theorem obsNodup_addObsOne (g : GraphState) (a : ObservationAddition)
    (hWF : (g.nodes.map (fun n => n.name)).Nodup)
    (hg : obsNodup g) (ha : a.contents.Nodup) : obsNodup (addObsOne g a).1 := by
  cases h : findNode? g a.entityName with
  | none => simpa [addObsOne, h] using hg
  | some n =>
      have h' : g.nodes.find? (fun m => m.name == a.entityName) = some n := h
      have hnmem : n ∈ g.nodes := List.mem_of_find?_eq_some h'
      have hnname : (n.name == a.entityName) = true := by
        have hx := List.find?_some h'
        exact hx
      unfold obsNodup
      simp only [addObsOne, h]
      intro m hm
      simp only [List.mem_map] at hm
      obtain ⟨m0, hm0, rfl⟩ := hm
      by_cases hc : (m0.name == a.entityName) = true
      · have heq : m0 = n := by
          apply List.inj_on_of_nodup_map hWF hm0 hnmem
          have h1 : m0.name = a.entityName := by simpa using hc
          have h2 : n.name = a.entityName := by simpa using hnname
          simp [h1, h2]
        subst heq
        simp only [hc, if_true]
        refine List.Nodup.append (hg m0 hm0) (List.Nodup.filter _ ha) ?_
        intro x hx hx'
        have hpred := (List.mem_filter.mp hx').2
        have : x ∉ m0.observations := by simpa using hpred
        exact this hx
      · simp only [hc, if_false]
        exact hg m0 hm0

/-- Auxiliary: the row-at-a-time `addObservations` loop preserves
duplicate-freeness of every observation list. -/
theorem obsNodup_addObsGo :
    ∀ (as : List ObservationAddition) (g : GraphState),
      (g.nodes.map (fun n => n.name)).Nodup → obsNodup g →
      (∀ a ∈ as, a.contents.Nodup) → obsNodup (addObsGo g as).1
  | [], _, _, hg, _ => hg
  | a :: rest, g, hWF, hg, ha => by
      have h1 := obsNodup_addObsOne g a hWF hg (ha a (by simp))
      have h2 : ((addObsOne g a).1.nodes.map (fun n => n.name)).Nodup := by
        rw [addObsOne_names]; exact hWF
      have h3 := obsNodup_addObsGo rest (addObsOne g a).1 h2 h1
        (fun x hx => ha x (by simp [hx]))
      simpa [addObsGo] using h3

/-- Auxiliary: one `deleteObservations` row keeps observation lists
duplicate-free (it only filters them). -/
theorem obsNodup_deleteObsOne (g : GraphState) (d : ObservationDeletion)
    (hg : obsNodup g) : obsNodup (deleteObsOne g d) := by
  unfold obsNodup deleteObsOne
  intro m hm
  simp only [List.mem_map] at hm
  obtain ⟨m0, hm0, rfl⟩ := hm
  by_cases hc : (m0.name == d.entityName) = true
  · simp only [hc, if_true]
    exact List.Nodup.filter _ (hg m0 hm0)
  · simp only [hc, if_false]
    exact hg m0 hm0

/-- Auxiliary: `deleteObservations` preserves duplicate-freeness. -/
theorem obsNodup_deleteObservations :
    ∀ (ds : List ObservationDeletion) (g : GraphState),
      obsNodup g → obsNodup (deleteObservations ds g)
  | [], _, hg => hg
  | d :: rest, g, hg =>
      obsNodup_deleteObservations rest (deleteObsOne g d)
        (obsNodup_deleteObsOne g d hg)

/-- C2 as amended: `addObservations` filters the submitted strings only
against the observations already stored on the entity, so for a batch whose
rows name pairwise-distinct entities the no-duplicate invariant is preserved
provided each submitted list (`contents` for `addObservations`, `observations`
for `createEntities`) is itself duplicate-free; `deleteObservations` preserves
it unconditionally.  Stated on states with distinct node names, which the
`MERGE`-by-name upserts maintain. -/
theorem observations_nodup_preserved (g : GraphState)
    (hWF : (g.nodes.map (fun n => n.name)).Nodup) (hg : obsNodup g) :
    (∀ es : List Entity, (∀ e ∈ es, e.observations.Nodup) →
        obsNodup (createEntities es g).1) ∧
    (∀ as : List ObservationAddition, (as.map (fun a => a.entityName)).Nodup →
        (∀ a ∈ as, a.contents.Nodup) → obsNodup (addObservations as g).1) ∧
    (∀ ds : List ObservationDeletion, obsNodup (deleteObservations ds g)) :=
  ⟨fun es he => obsNodup_createEntities_fold es g hg he,
   fun as _ ha => obsNodup_addObsGo as g hWF hg ha,
   fun ds => obsNodup_deleteObservations ds g hg⟩

/-- Witness for the amended C2 on a concrete one-entity state. -/
theorem observations_nodup_preserved_witness :
    obsNodup (createEntities [⟨"C", "T", ["a", "b"]⟩] dupG0).1 ∧
    obsNodup (addObservations [⟨"A", ["x", "y"]⟩] dupG0).1 ∧
    obsNodup (deleteObservations [⟨"A", ["x"]⟩] dupG0) := by
  have h := observations_nodup_preserved dupG0 (by decide) (by decide)
  exact ⟨h.1 _ (by decide), h.2.1 _ (by decide) (by decide), h.2.2 _⟩

/-- Auxiliary: a name-preserving update of the nodes matching `key` commutes
with looking up `other`. -/
theorem findNode_map_guard (g : GraphState) (key other : String) (f : Node → Node)
    (hf : ∀ m, (f m).name = m.name) :
    findNode? { g with nodes := g.nodes.map (fun m => if m.name == key then f m else m) } other
      = (findNode? g other).map (fun m => if m.name == key then f m else m) := by
  show (g.nodes.map (fun m => if m.name == key then f m else m)).find?
      (fun m => m.name == other)
    = (g.nodes.find? (fun m => m.name == other)).map
        (fun m => if m.name == key then f m else m)
  rw [List.find?_map]
  have hcomp : ((fun m => m.name == other) ∘ (fun m => if m.name == key then f m else m))
      = (fun m => m.name == other) := by
    funext m
    by_cases hc : (m.name == key) = true <;> simp [Function.comp, hc, hf m]
  rw [hcomp]

/-- Auxiliary: an `addObservations` row leaves every other entity's node
untouched. -/
theorem addObsOne_findNode_other (g : GraphState) (a : ObservationAddition)
    (other : String) (h : a.entityName ≠ other) :
    findNode? (addObsOne g a).1 other = findNode? g other := by
  cases hf : findNode? g a.entityName with
  | none => simp [addObsOne, hf]
  | some n =>
      simp only [addObsOne, hf]
      rw [findNode_map_guard g a.entityName other
        (fun m => { m with observations := m.observations ++
            a.contents.filter (fun o => !n.observations.contains o) })
        (fun m => rfl)]
      cases hg2 : findNode? g other with
      | none => simp
      | some m =>
          have hg2' : g.nodes.find? (fun m => m.name == other) = some m := hg2
          have hmname : (m.name == other) = true := by
            have hx := List.find?_some hg2'; exact hx
          have hmo : m.name = other := by simpa using hmname
          have hmne : ¬ m.name = a.entityName := by
            rw [hmo]; exact fun he => h he.symm
          simp [hmne]

/-- Auxiliary: an `addObservations` row whose entity is found appends exactly
the filtered contents to that node and reports exactly that slice. -/
theorem addObsOne_findNode_self (g : GraphState) (a : ObservationAddition) (n : Node)
    (h : findNode? g a.entityName = some n) :
    (addObsOne g a).2 =
      some ⟨a.entityName, a.contents.filter (fun o => !n.observations.contains o)⟩ ∧
    findNode? (addObsOne g a).1 a.entityName =
      some { n with observations :=
          n.observations ++ a.contents.filter (fun o => !n.observations.contains o) } := by
  have h' : g.nodes.find? (fun m => m.name == a.entityName) = some n := h
  have hnname : (n.name == a.entityName) = true := by
    have hx := List.find?_some h'; exact hx
  constructor
  · simp [addObsOne, h]
  · simp only [addObsOne, h]
    rw [findNode_map_guard g a.entityName a.entityName
      (fun m => { m with observations := m.observations ++
          a.contents.filter (fun o => !n.observations.contains o) })
      (fun m => rfl), h]
    have hn : n.name = a.entityName := by simpa using hnname
    simp [hn]

/-- Auxiliary: a row's reported record carries the row's entity name. -/
theorem addObsOne_result_name (g : GraphState) (a : ObservationAddition) :
    ∀ res ∈ (addObsOne g a).2.toList, res.entityName = a.entityName := by
  cases hf : findNode? g a.entityName <;> simp [addObsOne, hf]

/-- Auxiliary: every record reported by the `addObservations` loop names one
of the processed rows. -/
theorem addObsGo_results_names :
    ∀ (rest : List ObservationAddition) (g : GraphState),
      ∀ res ∈ (addObsGo g rest).2, res.entityName ∈ rest.map (fun b => b.entityName)
  | [], g, res, hres => by simp [addObsGo] at hres
  | a :: rest, g, res, hres => by
      simp only [addObsGo, List.mem_append] at hres
      simp only [List.map_cons, List.mem_cons]
      cases hres with
      | inl hl => exact Or.inl (addObsOne_result_name g a res hl)
      | inr hr => exact Or.inr (addObsGo_results_names rest (addObsOne g a).1 res hr)

/-- Auxiliary: the `addObservations` loop leaves entities it never names
untouched. -/
theorem addObsGo_findNode_frame :
    ∀ (rest : List ObservationAddition) (g : GraphState) (other : String),
      (∀ b ∈ rest, b.entityName ≠ other) →
      findNode? (addObsGo g rest).1 other = findNode? g other
  | [], _, _, _ => rfl
  | a :: rest, g, other, h => by
      have h1 : findNode? (addObsOne g a).1 other = findNode? g other :=
        addObsOne_findNode_other g a other (h a (by simp))
      have h2 := addObsGo_findNode_frame rest (addObsOne g a).1 other
        (fun b hb => h b (by simp [hb]))
      simp only [addObsGo]
      rw [h2, h1]

/-- C6: for rows naming pairwise-distinct entities, `addObservations` appends
to each named existing entity exactly the submitted strings not already among
its observations (the per-row filter, order preserved) and reports, per
matched entity, the name and exactly the appended slice; a row naming a
missing entity contributes no write and no record, and the call still
completes, returning the records of the matched rows. -/
theorem addObservations_set_difference :
    ∀ (as : List ObservationAddition) (g : GraphState),
      (as.map (fun a => a.entityName)).Nodup →
      ∀ a ∈ as,
        (∀ n, findNode? g a.entityName = some n →
          findNode? (addObservations as g).1 a.entityName =
            some { n with observations :=
                n.observations ++ a.contents.filter (fun o => !n.observations.contains o) } ∧
          (⟨a.entityName, a.contents.filter (fun o => !n.observations.contains o)⟩ : AddResult)
            ∈ (addObservations as g).2) ∧
        (findNode? g a.entityName = none →
          findNode? (addObservations as g).1 a.entityName = none ∧
          ∀ res ∈ (addObservations as g).2, res.entityName ≠ a.entityName)
  | [], _, _, a, ha => absurd ha (List.not_mem_nil a)
  | a0 :: rest, g, hNd, a, ha => by
      rw [List.map_cons, List.nodup_cons] at hNd
      obtain ⟨hNd0, hNdr⟩ := hNd
      rcases List.mem_cons.mp ha with rfl | har
      · constructor
        · intro n hn
          have hself := addObsOne_findNode_self g a n hn
          have hframe := addObsGo_findNode_frame rest (addObsOne g a).1 a.entityName
            (fun b hb he => hNd0 (by rw [← he]; exact List.mem_map_of_mem _ hb))
          constructor
          · show findNode? (addObsGo g (a :: rest)).1 a.entityName = _
            simp only [addObsGo]
            rw [hframe, hself.2]
          · show _ ∈ (addObsGo g (a :: rest)).2
            simp only [addObsGo]
            rw [hself.1]
            simp
        · intro hn
          have hstep : addObsOne g a = (g, none) := by simp [addObsOne, hn]
          have hframe := addObsGo_findNode_frame rest (addObsOne g a).1 a.entityName
            (fun b hb he => hNd0 (by rw [← he]; exact List.mem_map_of_mem _ hb))
          constructor
          · show findNode? (addObsGo g (a :: rest)).1 a.entityName = none
            simp only [addObsGo]
            rw [hframe, hstep]
            exact hn
          · intro res hres
            show res.entityName ≠ a.entityName
            simp only [addObservations, addObsGo] at hres
            rw [hstep] at hres
            simp only [List.mem_append] at hres
            have hres' : res ∈ (addObsGo g rest).2 := by
              rcases hres with hl | hr
              · simp at hl
              · exact hr
            have hmem := addObsGo_results_names rest g res hres'
            intro he
            rw [he] at hmem
            exact hNd0 hmem
      · have hne : a0.entityName ≠ a.entityName := by
          intro he
          exact hNd0 (he ▸ List.mem_map_of_mem _ har)
        have htrans : findNode? (addObsOne g a0).1 a.entityName = findNode? g a.entityName :=
          addObsOne_findNode_other g a0 a.entityName hne
        have hIH := addObservations_set_difference rest (addObsOne g a0).1 hNdr a har
        constructor
        · intro n hn
          have hn' : findNode? (addObsOne g a0).1 a.entityName = some n := by
            rw [htrans]; exact hn
          have h1 := hIH.1 n hn'
          constructor
          · show findNode? (addObsGo g (a0 :: rest)).1 a.entityName = _
            simp only [addObsGo]
            exact h1.1
          · show _ ∈ (addObsGo g (a0 :: rest)).2
            simp only [addObsGo]
            exact List.mem_append_right _ h1.2
        · intro hn
          have hn' : findNode? (addObsOne g a0).1 a.entityName = none := by
            rw [htrans]; exact hn
          have h2 := hIH.2 hn'
          constructor
          · show findNode? (addObsGo g (a0 :: rest)).1 a.entityName = none
            simp only [addObsGo]
            exact h2.1
          · intro res hres
            simp only [addObservations, addObsGo, List.mem_append] at hres
            rcases hres with hl | hr
            · have := addObsOne_result_name g a0 res hl
              rw [this]
              exact hne
            · exact h2.2 res hr

/-- Witness for C6: the spec's §8 dedup scenario (existing `["x"]`, submitted
`["x", "x", "y"]`) together with a row naming a missing entity. -/
theorem addObservations_set_difference_witness :
    findNode? (addObservations [⟨"A", ["x", "x", "y"]⟩] demoObsG).1 "A" =
      some { name := "A", type := "T", observations := ["x", "y"],
             extraLabels := [entityTypeLabelLiteral] } ∧
    (⟨"A", ["y"]⟩ : AddResult) ∈ (addObservations [⟨"A", ["x", "x", "y"]⟩] demoObsG).2 ∧
    findNode? (addObservations [⟨"ghost", ["z"]⟩] demoObsG).1 "ghost" = none ∧
    ∀ res ∈ (addObservations [⟨"ghost", ["z"]⟩] demoObsG).2, res.entityName ≠ "ghost" := by
  have h1 := (addObservations_set_difference [⟨"A", ["x", "x", "y"]⟩] demoObsG
    (by decide) ⟨"A", ["x", "x", "y"]⟩ (by simp)).1
    ⟨"A", "T", ["x"], [entityTypeLabelLiteral]⟩ (by decide)
  have h2 := (addObservations_set_difference [⟨"ghost", ["z"]⟩] demoObsG
    (by decide) ⟨"ghost", ["z"]⟩ (by simp)).2 (by decide)
  refine ⟨?_, ?_, h2.1, h2.2⟩
  · have := h1.1
    simpa using this
  · have := h1.2
    simpa using this
